import Mathlib

/-!
Formal model of the rcfdtdpy simulation module (`src/sim.py`).

The Python module defines two classes:
* `Field` — a 2D buffer (time rows x space columns) with a movable time
  cursor `n`, boundary-safe spatial reads, and row-copying iteration.
* `Sim` — the FDTD solver owning three `Field` instances (E, H, current)
  and five precomputed proportionality coefficients, with the update loop
  `simulate`.

Numeric values are modelled as rationals (exact arithmetic standing in for
the Python floats); Python exceptions (IndexError / ValueError) are
modelled with the `Except String` monad.  numpy indexing details are kept:
spatial reads in `get_index` are bounds-checked by the Python code itself
(returning 0 out of range), while `set_index` passes the index straight to
numpy, which wraps negative indices and raises on the rest.
-/

set_option maxHeartbeats 1000000

/-! ### List helper lemmas -/

namespace FdtdModel

variable {α : Type} {β : Type}

theorem getD_replicate (k n : Nat) (x d : α) :
    (List.replicate n x).getD k d = if k < n then x else d := by
  induction n generalizing k with
  | zero => simp [List.replicate]
  | succ m ih =>
    cases k with
    | zero => simp [List.replicate]
    | succ j =>
      simp only [List.replicate, List.getD_cons_succ, ih j]
      by_cases h : j < m
      · rw [if_pos h, if_pos (by omega)]
      · rw [if_neg h, if_neg (by omega)]

theorem getD_set_self (l : List α) (k : Nat) (x d : α) (h : k < l.length) :
    (l.set k x).getD k d = x := by
  induction l generalizing k with
  | nil => simp at h
  | cons a t ih =>
    cases k with
    | zero => rfl
    | succ j => exact ih j (by simpa using h)

theorem getD_set_ne (l : List α) (k m : Nat) (x d : α) (h : k ≠ m) :
    (l.set k x).getD m d = l.getD m d := by
  induction l generalizing k m with
  | nil => rfl
  | cons a t ih =>
    cases k with
    | zero => cases m with
      | zero => exact absurd rfl h
      | succ j => rfl
    | succ j => cases m with
      | zero => rfl
      | succ j' => exact ih j j' (by omega)

theorem set_getD_id (l : List α) (k : Nat) (d : α) (h : k < l.length) :
    l.set k (l.getD k d) = l := by
  induction l generalizing k with
  | nil => simp at h
  | cons a t ih =>
    cases k with
    | zero => rfl
    | succ j => simpa using ih j (by simpa using h)

theorem get?_eq_getD (l : List α) (k : Nat) (d : α) (h : k < l.length) :
    l.get? k = some (l.getD k d) := by
  induction l generalizing k with
  | nil => simp at h
  | cons a t ih =>
    cases k with
    | zero => rfl
    | succ j => exact ih j (by simpa using h)

theorem getD_mem (l : List α) (k : Nat) (d : α) (h : k < l.length) :
    l.getD k d ∈ l := by
  induction l generalizing k with
  | nil => simp at h
  | cons a t ih =>
    cases k with
    | zero => exact List.mem_cons_self a t
    | succ j => exact List.mem_cons_of_mem a (ih j (by simpa using h))

theorem getD_append_left (P D : List α) (k : Nat) (d : α) (h : k < P.length) :
    (P ++ D).getD k d = P.getD k d := by
  induction P generalizing k with
  | nil => simp at h
  | cons a t ih =>
    cases k with
    | zero => rfl
    | succ j => exact ih j (by simpa using h)

theorem getD_append_length (P D : List α) (d : α) :
    (P ++ D).getD P.length d = D.getD 0 d := by
  induction P with
  | nil => rfl
  | cons a t ih => simpa using ih

theorem set_append_length (P D : List α) (v : α) :
    (P ++ D).set P.length v = P ++ D.set 0 v := by
  induction P with
  | nil => rfl
  | cons a t ih => simp [ih]

theorem drop_getD_cons (l : List α) (k : Nat) (d : α) (h : k < l.length) :
    l.drop k = l.getD k d :: l.drop (k + 1) := by
  induction l generalizing k with
  | nil => simp at h
  | cons a t ih =>
    cases k with
    | zero => rfl
    | succ j => exact ih j (by simpa using h)

theorem getD_map_range (f : Nat → α) (n k : Nat) (d : α) (h : k < n) :
    ((List.range n).map f).getD k d = f k := by
  induction n with
  | zero => omega
  | succ m ih =>
    rw [List.range_succ, List.map_append]
    by_cases hk : k < m
    · rw [getD_append_left _ _ _ _ (by simpa using hk), ih hk]
    · have hkm : k = m := by omega
      subst hkm
      have hl : ((List.range k).map f).length = k := by simp
      have h2 := getD_append_length ((List.range k).map f) ((List.map f [k])) d
      rw [hl] at h2
      rw [h2]
      rfl

theorem set_replicate (n k : Nat) (x : α) :
    (List.replicate n x).set k x = List.replicate n x := by
  induction n generalizing k with
  | zero => rfl
  | succ m ih =>
    cases k with
    | zero => rfl
    | succ j => simp [List.replicate, ih j]

/-! ### Except-monad computation lemmas -/

@[simp] theorem except_bind_ok (a : α) (f : α → Except String β) :
    ((Except.ok a : Except String α) >>= f) = f a := rfl

@[simp] theorem except_bind_error (e : String) (f : α → Except String β) :
    ((Except.error e : Except String α) >>= f) = Except.error e := rfl

@[simp] theorem except_pure (a : α) :
    (pure a : Except String α) = Except.ok a := rfl

theorem foldlM_append_except (f : β → α → Except String β) (l₁ l₂ : List α) (b : β) :
    (l₁ ++ l₂).foldlM f b = l₁.foldlM f b >>= fun x => l₂.foldlM f x := by
  induction l₁ generalizing b with
  | nil => simp [List.foldlM]
  | cons a t ih =>
    simp only [List.cons_append, List.foldlM]
    cases f b a with
    | error e => simp
    | ok c => simp [ih c]

/-! ### The Field class (`sim.py`, class `Field`) -/

/-- Model of the Python `Field` class: a 2D buffer of shape
(`num_n`, `num_i`) with a current time cursor `n`. -/
structure Field where
  n : Nat
  num_n : Nat
  num_i : Nat
  field : List (List ℚ)

/-- `Field(num_n, num_i)` with `field=None`: a zero-initialized buffer and
the cursor at 0. -/
def Field.mk0 (num_n num_i : Nat) : Field :=
  ⟨0, num_n, num_i, List.replicate num_n (List.replicate num_i 0)⟩

/-- `Field(field=rows)`: a caller-supplied buffer; `num_n`/`num_i` are taken
from the buffer's shape (`np.shape`). -/
def Field.ofField (rows : List (List ℚ)) : Field :=
  ⟨0, rows.length, (rows.getD 0 []).length, rows⟩

/-- `Field.get_time_index`. -/
def Field.get_time_index (F : Field) : Nat := F.n

/-- `Field.set_time_index(n)`: rejects `n < 0` or `n >= num_n`. -/
def Field.set_time_index (F : Field) (m : Int) : Except String Field :=
  if m < 0 ∨ (F.num_n : Int) ≤ m then
    Except.error "The n argument is of out of bounds"
  else
    Except.ok { F with n := m.toNat }

/-- `Field.get_field(n=-1)`: `-1` is the default sentinel selecting the
current row; any other `n` is bounds-checked, then the numpy row at `n` is
returned. -/
def Field.get_field (F : Field) (m : Int) : Except String (List ℚ) :=
  if m = -1 then
    match F.field.get? F.n with
    | some r => Except.ok r
    | none => Except.error "index out of bounds"
  else if m < 0 ∨ (F.num_n : Int) ≤ m then
    Except.error "The n argument is of out of bounds"
  else
    match F.field.get? m.toNat with
    | some r => Except.ok r
    | none => Except.error "index out of bounds"

/-- `Field.get_index(i)` (also `__getitem__`): out-of-range spatial reads
return 0 (the zero boundary policy); in-range reads access the numpy
buffer at the current cursor. -/
def Field.get_index (F : Field) (i : Int) : Except String ℚ :=
  if i < 0 ∨ (F.num_i : Int) ≤ i then
    Except.ok 0
  else
    match F.field.get? F.n with
    | some r =>
      match r.get? i.toNat with
      | some v => Except.ok v
      | none => Except.error "index out of bounds"
    | none => Except.error "index out of bounds"

/-- `Field.set_index(i, value)` (also `__setitem__`): the Python code does
no bounds check; numpy wraps a negative index `i` to `i + num_i` and
raises `IndexError` if the wrapped index is still out of range. -/
def Field.set_index (F : Field) (i : Int) (v : ℚ) : Except String Field :=
  let idx : Int := if i < 0 then i + F.num_i else i
  if idx < 0 ∨ (F.num_i : Int) ≤ idx then
    Except.error "index out of bounds"
  else
    match F.field.get? F.n with
    | some r => Except.ok { F with field := F.field.set F.n (r.set idx.toNat v) }
    | none => Except.error "index out of bounds"

/-- `Field.set_field(nfield, n=-1)`: the length check runs first
(`ValueError`), then `-1` selects the current row, and any other `n` is
bounds-checked (`IndexError`). -/
def Field.set_field (F : Field) (nfield : List ℚ) (m : Int) : Except String Field :=
  if nfield.length ≠ F.num_i then
    Except.error "The nfield argument is of the incorrect length"
  else if m = -1 then
    if F.n < F.field.length then
      Except.ok { F with field := F.field.set F.n nfield }
    else
      Except.error "index out of bounds"
  else if m < 0 ∨ (F.num_n : Int) ≤ m then
    Except.error "The n argument is of out of bounds"
  else
    Except.ok { F with field := F.field.set m.toNat nfield }

/-- `Field.iterate()`: fails when the temporal index is exhausted,
otherwise copies the current row into row `n+1` and increments the
cursor. -/
def Field.iterate (F : Field) : Except String Field :=
  if F.num_n ≤ F.n + 1 then
    Except.error "Cannot iterate as the end of the temporal index has been reached."
  else
    match F.field.get? F.n with
    | some r => Except.ok { F with field := F.field.set (F.n + 1) r, n := F.n + 1 }
    | none => Except.error "index out of bounds"

/-- `Field.export()`. -/
def Field.export (F : Field) : List (List ℚ) := F.field

/-- Well-formedness of the list-of-lists buffer: numpy guarantees the
buffer really has shape (`num_n`, `num_i`). -/
def Field.wf (F : Field) : Prop :=
  F.field.length = F.num_n ∧ ∀ r ∈ F.field, r.length = F.num_i

instance (F : Field) : Decidable F.wf := by
  unfold Field.wf; infer_instance

/-- Pure spatial read at the current cursor with the zero boundary policy:
the value `get_index` yields on a valid cursor. -/
def Field.val (F : Field) (i : Int) : ℚ :=
  if i < 0 ∨ (F.num_i : Int) ≤ i then 0
  else (F.field.getD F.n []).getD i.toNat 0

/-- Pure read of cell (`m`, `i`) of the buffer. -/
def Field.valAt (F : Field) (m i : Nat) : ℚ :=
  (F.field.getD m []).getD i 0

theorem Field.rowlen (F : Field) (hw : F.wf) (hn : F.n < F.num_n) :
    (F.field.getD F.n []).length = F.num_i :=
  hw.2 _ (getD_mem _ _ _ (hw.1 ▸ hn))

theorem Field.getrow (F : Field) (hw : F.wf) (hn : F.n < F.num_n) :
    F.field.get? F.n = some (F.field.getD F.n []) :=
  get?_eq_getD _ _ _ (hw.1 ▸ hn)

/-- On a well-formed field with a valid cursor, `get_index` never fails and
returns `Field.val`. -/
theorem Field.get_index_val (F : Field) (hw : F.wf) (hn : F.n < F.num_n) (i : Int) :
    F.get_index i = Except.ok (F.val i) := by
  unfold Field.get_index Field.val
  by_cases h : i < 0 ∨ (F.num_i : Int) ≤ i
  · rw [if_pos h, if_pos h]
  · rw [if_neg h, if_neg h]
    have hi : i.toNat < (F.field.getD F.n []).length := by
      rw [F.rowlen hw hn]; omega
    have h2 := get?_eq_getD (F.field.getD F.n []) i.toNat (0 : ℚ) hi
    simp only [F.getrow hw hn, h2]

/-! ### The Sim class (`sim.py`, class `Sim`) -/

/-- Model of the Python `Sim` class: the constructor parameters, the three
owned `Field` instances, and the five proportionality coefficients computed
in `__init__`. -/
structure Sim where
  vacuum_permittivity : ℚ
  infinity_permittivity : ℚ
  vacuum_permeability : ℚ
  delta_t : ℚ
  delta_z : ℚ
  susceptibility : ℚ
  initial_susceptibility : ℚ
  num_n : Nat
  num_i : Nat
  cfield : Field
  efield : Field
  hfield : Field
  e_calc_term1_prop_coeff : ℚ
  e_calc_term2_prop_coeff : ℚ
  e_calc_term3_prop_coeff : ℚ
  e_calc_term4_prop_coeff : ℚ
  h_calc_term2_prop_coeff : ℚ

/-- `Sim.__init__`: stores the constants, allocates zero E/H fields of
shape (`num_n`, `num_i`), and computes the five proportionality
coefficients (the only place they are ever computed). -/
def Sim.init (vacuum_permittivity infinity_permittivity vacuum_permeability delta_t delta_z : ℚ)
    (num_n num_i : Nat) (current_field : Field)
    (susceptibility initial_susceptibility : ℚ) : Sim :=
  { vacuum_permittivity := vacuum_permittivity
    infinity_permittivity := infinity_permittivity
    vacuum_permeability := vacuum_permeability
    delta_t := delta_t
    delta_z := delta_z
    susceptibility := susceptibility
    initial_susceptibility := initial_susceptibility
    num_n := num_n
    num_i := num_i
    cfield := current_field
    efield := Field.mk0 num_n num_i
    hfield := Field.mk0 num_n num_i
    e_calc_term1_prop_coeff :=
      infinity_permittivity / (infinity_permittivity + initial_susceptibility)
    e_calc_term2_prop_coeff :=
      1 / (infinity_permittivity + initial_susceptibility)
    e_calc_term3_prop_coeff :=
      delta_t / (vacuum_permittivity * delta_z * (infinity_permittivity + initial_susceptibility))
    e_calc_term4_prop_coeff :=
      delta_t / (vacuum_permittivity * (infinity_permittivity + initial_susceptibility))
    h_calc_term2_prop_coeff :=
      delta_t / (vacuum_permeability * delta_z) }

/-- `Sim.psi()`: the dispersion term, stubbed to return zero. -/
def Sim.psi (_s : Sim) : ℚ := 0

/-- `Sim._current(i)`: reads the current field at spatial index `i` and the
current field's own time cursor. -/
def Sim.current (s : Sim) (i : Int) : Except String ℚ :=
  s.cfield.get_index i

/-- One body of the loop in `Sim._calc_hfield` at spatial index `i`. -/
def Sim.hstep (s : Sim) (i : Nat) : Except String Sim := do
  let term1 ← s.hfield.get_index i
  let eip1 ← s.efield.get_index ((i : Int) + 1)
  let ei ← s.efield.get_index i
  let term2 := s.h_calc_term2_prop_coeff * (eip1 - ei)
  let hf ← s.hfield.set_index i (term1 - term2)
  pure { s with hfield := hf }

/-- `Sim._calc_hfield`: the in-place loop over `i in range(num_i)`. -/
def Sim.calc_hfield (s : Sim) : Except String Sim :=
  (List.range s.num_i).foldlM Sim.hstep s

/-- One body of the loop in `Sim._calc_efield` at spatial index `i`. -/
def Sim.estep (s : Sim) (i : Nat) : Except String Sim := do
  let ei ← s.efield.get_index i
  let term1 := s.e_calc_term1_prop_coeff * ei
  let term2 := s.e_calc_term2_prop_coeff * s.psi
  let hi ← s.hfield.get_index i
  let him1 ← s.hfield.get_index ((i : Int) - 1)
  let term3 := s.e_calc_term3_prop_coeff * (hi - him1)
  let ji ← s.current i
  let term4 := s.e_calc_term4_prop_coeff * ji
  let ef ← s.efield.set_index i (term1 + term2 - term3 - term4)
  pure { s with efield := ef }

/-- `Sim._calc_efield`: the in-place loop over `i in range(num_i)`. -/
def Sim.calc_efield (s : Sim) : Except String Sim :=
  (List.range s.num_i).foldlM Sim.estep s

/-- `Sim._iterate_cfield`: advances the current field by only bumping its
time cursor (no row copy). -/
def Sim.iterate_cfield (s : Sim) : Except String Sim := do
  let cf ← s.cfield.set_time_index ((s.cfield.get_time_index : Int) + 1)
  pure { s with cfield := cf }

/-- One iteration of the loop body in `Sim.simulate`. -/
def Sim.step (s : Sim) : Except String Sim := do
  let s₁ ← s.calc_hfield
  let s₂ ← s₁.calc_efield
  let hf ← s₂.hfield.iterate
  let ef ← { s₂ with hfield := hf }.efield.iterate
  Sim.iterate_cfield { s₂ with hfield := hf, efield := ef }

/-- `Sim.simulate`: resets the three cursors to 0, then runs `num_n - 1`
iterations of the loop body. -/
def Sim.simulate (s : Sim) : Except String Sim := do
  let ef ← s.efield.set_time_index 0
  let s₁ := { s with efield := ef }
  let hf ← s₁.hfield.set_time_index 0
  let s₂ := { s₁ with hfield := hf }
  let cf ← s₂.cfield.set_time_index 0
  let s₃ := { s₂ with cfield := cf }
  (List.range (s₃.num_n - 1)).foldlM (fun t _ => Sim.step t) s₃

/-- Repeated `Field.iterate`, used to state the repeated-advance claim. -/
def Field.iterN : Nat → Field → Except String Field
  | 0, F => Except.ok F
  | k + 1, F => Field.iterN k F >>= Field.iterate

/-- Well-formedness of a solver state: the three grids are well-formed and
have the solver's dimensions. -/
def Sim.wf (s : Sim) : Prop :=
  s.efield.wf ∧ s.hfield.wf ∧ s.cfield.wf ∧
  s.efield.num_n = s.num_n ∧ s.efield.num_i = s.num_i ∧
  s.hfield.num_n = s.num_n ∧ s.hfield.num_i = s.num_i ∧
  s.cfield.num_n = s.num_n ∧ s.cfield.num_i = s.num_i

instance (s : Sim) : Decidable s.wf := by
  unfold Sim.wf; infer_instance

/-! ### Basic Field lemmas shared by several claims -/

/-- Out-of-range spatial reads return zero before the buffer is touched. -/
theorem Field.get_index_oob (F : Field) (i : Int) (h : i < 0 ∨ (F.num_i : Int) ≤ i) :
    F.get_index i = Except.ok 0 := by
  unfold Field.get_index
  rw [if_pos h]

/-- `iterate` on a well-formed, non-exhausted field copies the current row
forward and bumps the cursor. -/
theorem Field.iterate_ok (F : Field) (hw : F.wf) (h : F.n + 1 < F.num_n) :
    F.iterate = Except.ok
      { F with field := F.field.set (F.n + 1) (F.field.getD F.n []), n := F.n + 1 } := by
  unfold Field.iterate
  rw [if_neg (by omega)]
  simp only [F.getrow hw (by omega)]

/-- `iterate` on an exhausted field fails without any other precondition. -/
theorem Field.iterate_exhausted (F : Field) (h : F.num_n ≤ F.n + 1) :
    F.iterate = Except.error
      "Cannot iterate as the end of the temporal index has been reached." := by
  unfold Field.iterate
  rw [if_pos h]

/-- Repeatedly advancing a fresh zero grid: after `k < num_n` advances the
cursor is `k` and the buffer is still all zeros. -/
theorem Field.iterN_mk0 (k nn ni : Nat) (h : k < nn) :
    Field.iterN k (Field.mk0 nn ni) =
      Except.ok ⟨k, nn, ni, List.replicate nn (List.replicate ni 0)⟩ := by
  induction k with
  | zero => rfl
  | succ j ih =>
    have hj : j < nn := by omega
    rw [Field.iterN, ih hj]
    unfold Field.iterate
    simp only [except_bind_ok]
    rw [if_neg (by simp; omega)]
    have hrow := get?_eq_getD (List.replicate nn (List.replicate ni (0:ℚ))) j
      (List.replicate ni 0) (by simp [hj])
    rw [getD_replicate] at hrow
    rw [if_pos hj] at hrow
    simp only [hrow]
    rw [set_replicate]

/-! ### More computation helpers -/

@[simp] theorem except_bind_pure (x : Except String α) : x >>= pure = x := by
  cases x <;> rfl

theorem bind_ok_iff (x : Except String α) (f : α → Except String β) (b : β) :
    (x >>= f) = Except.ok b ↔ ∃ a, x = Except.ok a ∧ f a = Except.ok b := by
  cases x <;> simp

theorem get?_set_self (l : List α) (m : Nat) (x : α) (h : m < l.length) :
    (l.set m x).get? m = some x := by
  have h1 := get?_eq_getD (l.set m x) m x (by simpa using h)
  rwa [getD_set_self _ _ _ _ h] at h1

theorem get?_append_cons (P : List α) (x : α) (T : List α) :
    (P ++ x :: T).get? P.length = some x := by
  have h1 := get?_eq_getD (P ++ x :: T) P.length x (by simp)
  rwa [getD_append_length] at h1

theorem mem_set_or (l : List α) (m : Nat) (x a : α) (h : a ∈ l.set m x) :
    a ∈ l ∨ a = x := by
  induction l generalizing m with
  | nil => simp at h
  | cons b t ih =>
    cases m with
    | zero =>
      rcases List.mem_cons.mp h with h | h
      · exact Or.inr h
      · exact Or.inl (List.mem_cons_of_mem b h)
    | succ j =>
      rcases List.mem_cons.mp h with h | h
      · exact Or.inl (h ▸ List.mem_cons_self b t)
      · rcases ih j h with h | h
        · exact Or.inl (List.mem_cons_of_mem b h)
        · exact Or.inr h

/-- Replacing a row (and possibly the cursor) of a well-formed field with a
row of the right length preserves well-formedness. -/
theorem wf_mk_set (n' m : Nat) (F : Field) (hw : F.wf) (r : List ℚ)
    (hr : r.length = F.num_i) :
    Field.wf ⟨n', F.num_n, F.num_i, F.field.set m r⟩ := by
  constructor
  · simpa using hw.1
  · intro x hx
    rcases mem_set_or _ _ _ _ hx with h | h
    · exact hw.2 x h
    · rw [h]; exact hr

/-- In-range pure read. -/
theorem Field.val_in (F : Field) (k : Nat) (h : k < F.num_i) :
    F.val k = (F.field.getD F.n []).getD k 0 := by
  unfold Field.val
  rw [if_neg (by omega)]
  simp

/-! ### Claim theorems: Field-level claims -/

/-- A concrete 1x2 grid holding the row [1, 2], cursor at 0. -/
def gridC3 : Field := ⟨0, 1, 2, [[1, 2]]⟩

/-- C3 counterexample: `setValue(-1, 9)` on a 1x2 grid holding [1, 2] is
not rejected — numpy wraps the negative index and the write lands silently
in column 1, changing the buffer to [1, 9]. -/
theorem c3_set_index_counterexample :
    (gridC3.set_index (-1) 9).toOption.map Field.field = some [[1, 9]] ∧
    some [[(1 : ℚ), 9]] ≠ some gridC3.field := by
  constructor
  · rfl
  · decide

/-- C3 amended: a write at `i ≥ num_i` or `i < -num_i` is rejected with an
IndexError (buffer unchanged), but a write at `-num_i ≤ i < 0` is silently
redirected to column `num_i + i` of the current row (numpy negative-index
wraparound), not rejected. -/
theorem c3_set_index_amended (F : Field) (i : Int) (v : ℚ) :
    ((F.num_i : Int) ≤ i ∨ i < -(F.num_i : Int) →
      F.set_index i v = Except.error "index out of bounds") ∧
    (-(F.num_i : Int) ≤ i → i < 0 → F.n < F.field.length →
      F.set_index i v = Except.ok
        { F with field :=
            F.field.set F.n ((F.field.getD F.n []).set (i + F.num_i).toNat v) }) := by
  constructor
  · intro h
    unfold Field.set_index
    rcases h with h | h
    · rw [if_neg (show ¬ i < 0 by omega)]
      rw [if_pos (Or.inr h)]
    · rw [if_pos (show i < 0 by omega)]
      rw [if_pos (Or.inl (show i + (F.num_i : Int) < 0 by omega))]
  · intro h1 h2 h3
    unfold Field.set_index
    rw [if_pos h2]
    rw [if_neg (show ¬ (i + (F.num_i : Int) < 0 ∨ (F.num_i : Int) ≤ i + (F.num_i : Int)) by omega)]
    simp only [get?_eq_getD F.field F.n [] h3]

/-- Witness for the amended C3 statement at concrete inputs. -/
theorem c3_set_index_witness :
    gridC3.set_index 2 9 = Except.error "index out of bounds" ∧
    gridC3.set_index (-1) 9 = Except.ok
      { gridC3 with field := gridC3.field.set gridC3.n ((gridC3.field.getD gridC3.n []).set ((-1 + (gridC3.num_i : Int)).toNat) 9) } :=
  ⟨(c3_set_index_amended gridC3 2 9).1 (by decide),
   (c3_set_index_amended gridC3 (-1) 9).2 (by decide) (by decide) (by decide)⟩

/-- A concrete 2x2 all-zero grid, cursor at 0. -/
def gridC4 : Field := ⟨0, 2, 2, [[0, 0], [0, 0]]⟩

/-- C4 counterexample: the explicitly passed time index `n = -1` is out of
`[0, num_n)` yet does not fail — it is the current-row sentinel: `getRow(-1)`
returns row 0, and `setRow([1,2], -1)` succeeds and mutates the grid. -/
theorem c4_row_oob_counterexample :
    gridC4.get_field (-1) = Except.ok [0, 0] ∧
    (gridC4.set_field [1, 2] (-1)).toOption.map Field.field = some [[1, 2], [0, 0]] ∧
    some [[(1 : ℚ), 2], [0, 0]] ≠ some gridC4.field := by
  refine ⟨rfl, rfl, by decide⟩

/-- C4 amended: for an explicitly passed `n` with `n ≤ -2` or `n ≥ num_n`,
`getRow` fails with the out-of-bounds error and `setRow` with a row of
length `num_i` also fails with the out-of-bounds error (the grid is
unchanged); `n = -1` is indistinguishable from the default and selects the
current row instead of failing. -/
theorem c4_row_oob_amended (F : Field) (nfield : List ℚ) (m : Int)
    (h : m < -1 ∨ (F.num_n : Int) ≤ m) :
    F.get_field m = Except.error "The n argument is of out of bounds" ∧
    (nfield.length = F.num_i →
      F.set_field nfield m = Except.error "The n argument is of out of bounds") := by
  constructor
  · unfold Field.get_field
    rw [if_neg (by omega), if_pos (by omega)]
  · intro hl
    unfold Field.set_field
    rw [if_neg (by omega), if_neg (by omega), if_pos (by omega)]

/-- Witness for the amended C4 statement at concrete inputs. -/
theorem c4_row_oob_witness :
    gridC4.get_field 2 = Except.error "The n argument is of out of bounds" ∧
    gridC4.set_field [5, 6] 2 = Except.error "The n argument is of out of bounds" :=
  ⟨(c4_row_oob_amended gridC4 [5, 6] 2 (by decide)).1,
   (c4_row_oob_amended gridC4 [5, 6] 2 (by decide)).2 (by decide)⟩

/-- C5: `advance()` semantics — on a well-formed grid with `n+1 < num_n` it
copies row `n` into row `n+1` and sets the cursor to `n+1`; with
`n+1 ≥ num_n` it fails with the exhaustion error (functionally, the grid is
untouched); and from a fresh grid exactly `num_n - 1` successive advances
succeed, leaving cursor `num_n - 1` with one further call failing. -/
theorem c5_advance_spec :
    (∀ F : Field, F.wf → F.n + 1 < F.num_n →
      F.iterate = Except.ok
        { F with field := F.field.set (F.n + 1) (F.field.getD F.n []), n := F.n + 1 }) ∧
    (∀ F : Field, F.num_n ≤ F.n + 1 →
      F.iterate = Except.error
        "Cannot iterate as the end of the temporal index has been reached.") ∧
    (∀ nn ni : Nat, 1 ≤ nn →
      Field.iterN (nn - 1) (Field.mk0 nn ni) =
        Except.ok ⟨nn - 1, nn, ni, List.replicate nn (List.replicate ni 0)⟩ ∧
      Field.iterN nn (Field.mk0 nn ni) =
        Except.error "Cannot iterate as the end of the temporal index has been reached.") := by
  refine ⟨Field.iterate_ok, Field.iterate_exhausted, ?_⟩
  intro nn ni h1
  have hfirst := Field.iterN_mk0 (nn - 1) nn ni (by omega)
  refine ⟨hfirst, ?_⟩
  have hsplit : nn = (nn - 1) + 1 := by omega
  rw [hsplit, Field.iterN, ← hsplit, hfirst]
  simp only [except_bind_ok]
  apply Field.iterate_exhausted
  show nn ≤ nn - 1 + 1
  omega

/-- Witness for C5 at the spec's Scenario C grid: a 3x4 grid whose row 0 is
[1,2,3,4]; one advance copies it into row 1 and leaves the cursor at 1, and
the fresh 3x4 grid takes exactly 2 advances before the third fails. -/
theorem c5_advance_witness :
    (⟨0, 3, 4, [[1, 2, 3, 4], [0, 0, 0, 0], [0, 0, 0, 0]]⟩ : Field).iterate =
      Except.ok ⟨1, 3, 4, [[1, 2, 3, 4], [1, 2, 3, 4], [0, 0, 0, 0]]⟩ ∧
    Field.iterN 2 (Field.mk0 3 4) =
      Except.ok ⟨2, 3, 4, List.replicate 3 (List.replicate 4 0)⟩ ∧
    Field.iterN 3 (Field.mk0 3 4) =
      Except.error "Cannot iterate as the end of the temporal index has been reached." :=
  ⟨c5_advance_spec.1 _ (by decide) (by decide),
   (c5_advance_spec.2.2 3 4 (by decide)).1,
   (c5_advance_spec.2.2 3 4 (by decide)).2⟩

/-- C8: `getValue(i)` returns zero, with no error, for every column index
outside `[0, num_i)`, on every grid whatever its buffer and cursor. -/
theorem c8_getvalue_oob (F : Field) (i : Int) (h : i < 0 ∨ (F.num_i : Int) ≤ i) :
    F.get_index i = Except.ok 0 :=
  F.get_index_oob i h

/-- Witness for C8: out-of-range reads on the concrete [1, 2] grid. -/
theorem c8_getvalue_oob_witness :
    gridC3.get_index (-5) = Except.ok 0 ∧ gridC3.get_index 2 = Except.ok 0 :=
  ⟨c8_getvalue_oob gridC3 (-5) (by decide), c8_getvalue_oob gridC3 2 (by decide)⟩

/-- C10: the default-constructed grid (`num_n = 0`, `num_i = 0`, zero
buffer) has cursor 0, violates the cursor invariant `n < num_n`, returns
zero from `getValue(i)` for every `i`, and fails with an error on a
no-argument `getRow()`. -/
theorem c10_default_grid :
    (Field.mk0 0 0).n = 0 ∧
    ¬ ((Field.mk0 0 0).n < (Field.mk0 0 0).num_n) ∧
    (∀ i : Int, (Field.mk0 0 0).get_index i = Except.ok 0) ∧
    (Field.mk0 0 0).get_field (-1) = Except.error "index out of bounds" := by
  refine ⟨rfl, by decide, ?_, rfl⟩
  intro i
  apply Field.get_index_oob
  have h0 : ((Field.mk0 0 0).num_i : Int) = 0 := rfl
  omega

/-! ### Pointwise specification of the update passes -/

/-- The pointwise magnetic update at index `i` (with the zero boundary
policy on E reads). -/
def hFun (s : Sim) (i : Nat) : ℚ :=
  s.hfield.val i - s.h_calc_term2_prop_coeff *
    (s.efield.val ((i : Int) + 1) - s.efield.val (i : Int))

/-- The row the H pass writes at the current cursor. -/
def hRow (s : Sim) : List ℚ := (List.range s.num_i).map (hFun s)

/-- The solver state after the H pass. -/
def hPassResult (s : Sim) : Sim :=
  { s with hfield := { s.hfield with field := s.hfield.field.set s.hfield.n (hRow s) } }

/-- The solver state in the middle of the H pass, after the first `k`
indices have been written. -/
def hPartial (s : Sim) (k : Nat) : Sim :=
  { s with hfield := { s.hfield with field := s.hfield.field.set s.hfield.n (((List.range k).map (hFun s)) ++ ((s.hfield.field.getD s.hfield.n []).drop k)) } }

theorem hPartial_hfield (s : Sim) (k : Nat) :
    (hPartial s k).hfield = { s.hfield with field := s.hfield.field.set s.hfield.n (((List.range k).map (hFun s)) ++ ((s.hfield.field.getD s.hfield.n []).drop k)) } := rfl

theorem hPartial_hfield_field (s : Sim) (k : Nat) :
    (hPartial s k).hfield.field = s.hfield.field.set s.hfield.n
      (((List.range k).map (hFun s)) ++ ((s.hfield.field.getD s.hfield.n []).drop k)) := rfl

theorem set_prefix_cons (P : List α) (x v : α) (T : List α) (j : Nat) (hP : P.length = j) :
    (P ++ x :: T).set j v = P ++ v :: T := by
  subst hP
  rw [set_append_length]
  rfl

theorem get?_prefix_cons (P : List α) (x : α) (T : List α) (j : Nat) (hP : P.length = j) :
    (P ++ x :: T).get? j = some x := by
  subst hP
  exact get?_append_cons P x T

theorem map_range_succ_append (f : Nat → α) (j : Nat) (T : List α) :
    ((List.range (j + 1)).map f) ++ T = ((List.range j).map f) ++ f j :: T := by
  rw [List.range_succ, List.map_append, List.append_assoc]
  rfl

/-- `_calc_hfield` equals the pointwise update: the sequential in-place
loop writes `H[i] - ch * (E[i+1] - E[i])` at every `i`, reading only
pre-update E values and the not-yet-written H entries. -/
theorem calc_hfield_spec (s : Sim)
    (he : s.efield.wf) (hne : s.efield.n < s.efield.num_n)
    (hh : s.hfield.wf) (hnh : s.hfield.n < s.hfield.num_n)
    (hhi : s.hfield.num_i = s.num_i) :
    s.calc_hfield = Except.ok (hPassResult s) := by
  have hlenR : (s.hfield.field.getD s.hfield.n []).length = s.num_i := by
    rw [s.hfield.rowlen hh hnh, hhi]
  have hnlen : s.hfield.n < s.hfield.field.length := by rw [hh.1]; exact hnh
  have aux : ∀ k, k ≤ s.num_i →
      (List.range k).foldlM Sim.hstep s = Except.ok (hPartial s k) := by
    intro k
    induction k with
    | zero =>
      intro _
      unfold hPartial
      simp only [List.range_zero, List.map_nil, List.nil_append, List.drop_zero, List.foldlM]
      rw [set_getD_id _ _ _ hnlen]
      rfl
    | succ j ih =>
      intro hk
      have hj : j < s.num_i := by omega
      rw [List.range_succ, foldlM_append_except, ih (by omega), except_bind_ok]
      have hdrop : (s.hfield.field.getD s.hfield.n []).drop j =
          (s.hfield.field.getD s.hfield.n []).getD j 0 ::
            (s.hfield.field.getD s.hfield.n []).drop (j + 1) :=
        drop_getD_cons _ j 0 (by omega)
      have hPlen : ((List.range j).map (hFun s)).length = j := by simp
      have h1 : (hPartial s j).hfield.get_index (j : Int) =
          Except.ok ((s.hfield.field.getD s.hfield.n []).getD j 0) := by
        unfold Field.get_index
        rw [if_neg (show ¬ ((j : Int) < 0 ∨ ((hPartial s j).hfield.num_i : Int) ≤ (j : Int)) by show ¬ ((j : Int) < 0 ∨ (s.hfield.num_i : Int) ≤ (j : Int)); omega)]
        simp only [hPartial, hdrop, Int.toNat_natCast, get?_set_self _ _ _ hnlen,
          get?_prefix_cons _ _ _ j hPlen]
      have h2 : (hPartial s j).efield.get_index ((j : Int) + 1) =
          Except.ok (s.efield.val ((j : Int) + 1)) :=
        Field.get_index_val s.efield he hne _
      have h3 : (hPartial s j).efield.get_index (j : Int) =
          Except.ok (s.efield.val (j : Int)) :=
        Field.get_index_val s.efield he hne _
      have hval : hFun s j = (s.hfield.field.getD s.hfield.n []).getD j 0 -
          s.h_calc_term2_prop_coeff * (s.efield.val ((j : Int) + 1) - s.efield.val (j : Int)) := by
        unfold hFun
        rw [Field.val_in s.hfield j (by omega)]
      have h4 : (hPartial s j).hfield.set_index (j : Int)
          ((s.hfield.field.getD s.hfield.n []).getD j 0 -
            (hPartial s j).h_calc_term2_prop_coeff *
              (s.efield.val ((j : Int) + 1) - s.efield.val (j : Int))) =
          Except.ok ((hPartial s (j + 1)).hfield) := by
        unfold Field.set_index
        rw [if_neg (show ¬ ((j : Int) < 0) by omega)]
        rw [if_neg (show ¬ ((j : Int) < 0 ∨ ((hPartial s j).hfield.num_i : Int) ≤ (j : Int)) by show ¬ ((j : Int) < 0 ∨ (s.hfield.num_i : Int) ≤ (j : Int)); omega)]
        show (match (hPartial s j).hfield.field.get? (hPartial s j).hfield.n with | some r => Except.ok { (hPartial s j).hfield with field := (hPartial s j).hfield.field.set (hPartial s j).hfield.n (r.set ((j : Int)).toNat ((s.hfield.field.getD s.hfield.n []).getD j 0 - (hPartial s j).h_calc_term2_prop_coeff * (s.efield.val ((j : Int) + 1) - s.efield.val (j : Int)))) } | none => Except.error "index out of bounds") = _
        rw [hPartial_hfield_field]
        rw [show (hPartial s j).hfield.n = s.hfield.n from rfl]
        rw [get?_set_self _ _ _ hnlen]
        show Except.ok ({ (hPartial s j).hfield with field := (s.hfield.field.set s.hfield.n (((List.range j).map (hFun s)) ++ ((s.hfield.field.getD s.hfield.n []).drop j))).set s.hfield.n ((((List.range j).map (hFun s)) ++ ((s.hfield.field.getD s.hfield.n []).drop j)).set ((j : Int)).toNat ((s.hfield.field.getD s.hfield.n []).getD j 0 - (hPartial s j).h_calc_term2_prop_coeff * (s.efield.val ((j : Int) + 1) - s.efield.val (j : Int)))) } : Field) = _
        rw [List.set_set, Int.toNat_natCast, hdrop,
          set_prefix_cons _ _ _ _ j hPlen]
        show Except.ok ({ s.hfield with field := s.hfield.field.set s.hfield.n (((List.range j).map (hFun s)) ++ ((s.hfield.field.getD s.hfield.n []).getD j 0 - (hPartial s j).h_calc_term2_prop_coeff * (s.efield.val ((j : Int) + 1) - s.efield.val (j : Int))) :: ((s.hfield.field.getD s.hfield.n []).drop (j + 1))) } : Field) = _
        rw [show (hPartial s j).h_calc_term2_prop_coeff = s.h_calc_term2_prop_coeff from rfl, ← hval]
        rw [hPartial_hfield s (j + 1), map_range_succ_append]
      show List.foldlM Sim.hstep (hPartial s j) [j] = Except.ok (hPartial s (j + 1))
      show Sim.hstep (hPartial s j) j >>= (fun y => List.foldlM Sim.hstep y []) = Except.ok (hPartial s (j + 1))
      simp only [Sim.hstep, h1, h2, h3, except_bind_ok]
      rw [h4]
      simp only [except_bind_ok, List.foldlM, except_pure]
      rfl
  have hfinal := aux s.num_i (le_refl _)
  unfold Sim.calc_hfield
  rw [hfinal]
  unfold hPartial hPassResult hRow
  have hdropnil : (s.hfield.field.getD s.hfield.n []).drop s.num_i = [] := by
    rw [List.drop_eq_nil_iff, hlenR]
  rw [hdropnil, List.append_nil]

/-- The pointwise electric update at index `i` (with the zero boundary
policy on H and current reads, and the stubbed dispersion term). -/
def eFun (s : Sim) (i : Nat) : ℚ :=
  s.e_calc_term1_prop_coeff * s.efield.val i + s.e_calc_term2_prop_coeff * s.psi
    - s.e_calc_term3_prop_coeff * (s.hfield.val i - s.hfield.val ((i : Int) - 1))
    - s.e_calc_term4_prop_coeff * s.cfield.val i

/-- The row the E pass writes at the current cursor. -/
def eRow (s : Sim) : List ℚ := (List.range s.num_i).map (eFun s)

/-- The solver state after the E pass. -/
def ePassResult (s : Sim) : Sim :=
  { s with efield := { s.efield with field := s.efield.field.set s.efield.n (eRow s) } }

/-- The solver state in the middle of the E pass, after the first `k`
indices have been written. -/
def ePartial (s : Sim) (k : Nat) : Sim :=
  { s with efield := { s.efield with field := s.efield.field.set s.efield.n (((List.range k).map (eFun s)) ++ ((s.efield.field.getD s.efield.n []).drop k)) } }

theorem ePartial_efield (s : Sim) (k : Nat) :
    (ePartial s k).efield = { s.efield with field := s.efield.field.set s.efield.n (((List.range k).map (eFun s)) ++ ((s.efield.field.getD s.efield.n []).drop k)) } := rfl

theorem ePartial_efield_field (s : Sim) (k : Nat) :
    (ePartial s k).efield.field = s.efield.field.set s.efield.n
      (((List.range k).map (eFun s)) ++ ((s.efield.field.getD s.efield.n []).drop k)) := rfl

/-- `_calc_efield` equals the pointwise update: the sequential in-place
loop writes `c1*E[i] + c2*psi - c3*(H[i] - H[i-1]) - c4*J[i]` at every
`i`, reading pre-update E entries and the (already final) H and current
grids. -/
theorem calc_efield_spec (s : Sim)
    (he : s.efield.wf) (hne : s.efield.n < s.efield.num_n)
    (hei : s.efield.num_i = s.num_i)
    (hh : s.hfield.wf) (hnh : s.hfield.n < s.hfield.num_n)
    (hc : s.cfield.wf) (hnc : s.cfield.n < s.cfield.num_n) :
    s.calc_efield = Except.ok (ePassResult s) := by
  have hlenR : (s.efield.field.getD s.efield.n []).length = s.num_i := by
    rw [s.efield.rowlen he hne, hei]
  have hnlen : s.efield.n < s.efield.field.length := by rw [he.1]; exact hne
  have aux : ∀ k, k ≤ s.num_i →
      (List.range k).foldlM Sim.estep s = Except.ok (ePartial s k) := by
    intro k
    induction k with
    | zero =>
      intro _
      unfold ePartial
      simp only [List.range_zero, List.map_nil, List.nil_append, List.drop_zero, List.foldlM]
      rw [set_getD_id _ _ _ hnlen]
      rfl
    | succ j ih =>
      intro hk
      have hj : j < s.num_i := by omega
      rw [List.range_succ, foldlM_append_except, ih (by omega), except_bind_ok]
      have hdrop : (s.efield.field.getD s.efield.n []).drop j =
          (s.efield.field.getD s.efield.n []).getD j 0 ::
            (s.efield.field.getD s.efield.n []).drop (j + 1) :=
        drop_getD_cons _ j 0 (by omega)
      have hPlen : ((List.range j).map (eFun s)).length = j := by simp
      have h1 : (ePartial s j).efield.get_index (j : Int) =
          Except.ok ((s.efield.field.getD s.efield.n []).getD j 0) := by
        unfold Field.get_index
        rw [if_neg (show ¬ ((j : Int) < 0 ∨ ((ePartial s j).efield.num_i : Int) ≤ (j : Int)) by show ¬ ((j : Int) < 0 ∨ (s.efield.num_i : Int) ≤ (j : Int)); omega)]
        simp only [ePartial, hdrop, Int.toNat_natCast, get?_set_self _ _ _ hnlen,
          get?_prefix_cons _ _ _ j hPlen]
      have h2 : (ePartial s j).hfield.get_index (j : Int) =
          Except.ok (s.hfield.val (j : Int)) :=
        Field.get_index_val s.hfield hh hnh _
      have h3 : (ePartial s j).hfield.get_index ((j : Int) - 1) =
          Except.ok (s.hfield.val ((j : Int) - 1)) :=
        Field.get_index_val s.hfield hh hnh _
      have h3c : Sim.current (ePartial s j) (j : Int) =
          Except.ok (s.cfield.val (j : Int)) :=
        Field.get_index_val s.cfield hc hnc _
      have hval : eFun s j = s.e_calc_term1_prop_coeff *
            ((s.efield.field.getD s.efield.n []).getD j 0) +
          s.e_calc_term2_prop_coeff * Sim.psi s -
          s.e_calc_term3_prop_coeff * (s.hfield.val (j : Int) - s.hfield.val ((j : Int) - 1)) -
          s.e_calc_term4_prop_coeff * s.cfield.val (j : Int) := by
        unfold eFun
        rw [Field.val_in s.efield j (by omega)]
      have h4 : (ePartial s j).efield.set_index (j : Int)
          ((ePartial s j).e_calc_term1_prop_coeff *
              ((s.efield.field.getD s.efield.n []).getD j 0) +
            (ePartial s j).e_calc_term2_prop_coeff * Sim.psi (ePartial s j) -
            (ePartial s j).e_calc_term3_prop_coeff *
              (s.hfield.val (j : Int) - s.hfield.val ((j : Int) - 1)) -
            (ePartial s j).e_calc_term4_prop_coeff * s.cfield.val (j : Int)) =
          Except.ok ((ePartial s (j + 1)).efield) := by
        unfold Field.set_index
        rw [if_neg (show ¬ ((j : Int) < 0) by omega)]
        rw [if_neg (show ¬ ((j : Int) < 0 ∨ ((ePartial s j).efield.num_i : Int) ≤ (j : Int)) by show ¬ ((j : Int) < 0 ∨ (s.efield.num_i : Int) ≤ (j : Int)); omega)]
        show (match (ePartial s j).efield.field.get? (ePartial s j).efield.n with | some r => Except.ok { (ePartial s j).efield with field := (ePartial s j).efield.field.set (ePartial s j).efield.n (r.set ((j : Int)).toNat ((ePartial s j).e_calc_term1_prop_coeff * ((s.efield.field.getD s.efield.n []).getD j 0) + (ePartial s j).e_calc_term2_prop_coeff * Sim.psi (ePartial s j) - (ePartial s j).e_calc_term3_prop_coeff * (s.hfield.val (j : Int) - s.hfield.val ((j : Int) - 1)) - (ePartial s j).e_calc_term4_prop_coeff * s.cfield.val (j : Int))) } | none => Except.error "index out of bounds") = _
        rw [ePartial_efield_field]
        rw [show (ePartial s j).efield.n = s.efield.n from rfl]
        rw [get?_set_self _ _ _ hnlen]
        show Except.ok ({ (ePartial s j).efield with field := (s.efield.field.set s.efield.n (((List.range j).map (eFun s)) ++ ((s.efield.field.getD s.efield.n []).drop j))).set s.efield.n ((((List.range j).map (eFun s)) ++ ((s.efield.field.getD s.efield.n []).drop j)).set ((j : Int)).toNat ((ePartial s j).e_calc_term1_prop_coeff * ((s.efield.field.getD s.efield.n []).getD j 0) + (ePartial s j).e_calc_term2_prop_coeff * Sim.psi (ePartial s j) - (ePartial s j).e_calc_term3_prop_coeff * (s.hfield.val (j : Int) - s.hfield.val ((j : Int) - 1)) - (ePartial s j).e_calc_term4_prop_coeff * s.cfield.val (j : Int))) } : Field) = _
        rw [List.set_set, Int.toNat_natCast, hdrop,
          set_prefix_cons _ _ _ _ j hPlen]
        show Except.ok ({ s.efield with field := s.efield.field.set s.efield.n (((List.range j).map (eFun s)) ++ ((ePartial s j).e_calc_term1_prop_coeff * ((s.efield.field.getD s.efield.n []).getD j 0) + (ePartial s j).e_calc_term2_prop_coeff * Sim.psi (ePartial s j) - (ePartial s j).e_calc_term3_prop_coeff * (s.hfield.val (j : Int) - s.hfield.val ((j : Int) - 1)) - (ePartial s j).e_calc_term4_prop_coeff * s.cfield.val (j : Int)) :: ((s.efield.field.getD s.efield.n []).drop (j + 1))) } : Field) = _
        rw [show (ePartial s j).e_calc_term1_prop_coeff = s.e_calc_term1_prop_coeff from rfl,
          show (ePartial s j).e_calc_term2_prop_coeff = s.e_calc_term2_prop_coeff from rfl,
          show (ePartial s j).e_calc_term3_prop_coeff = s.e_calc_term3_prop_coeff from rfl,
          show (ePartial s j).e_calc_term4_prop_coeff = s.e_calc_term4_prop_coeff from rfl,
          show Sim.psi (ePartial s j) = Sim.psi s from rfl, ← hval]
        rw [ePartial_efield s (j + 1), map_range_succ_append]
      show List.foldlM Sim.estep (ePartial s j) [j] = Except.ok (ePartial s (j + 1))
      show Sim.estep (ePartial s j) j >>= (fun y => List.foldlM Sim.estep y []) = Except.ok (ePartial s (j + 1))
      simp only [Sim.estep, h1, h2, h3, h3c, except_bind_ok]
      rw [h4]
      simp only [except_bind_ok, List.foldlM, except_pure]
      rfl
  have hfinal := aux s.num_i (le_refl _)
  unfold Sim.calc_efield
  rw [hfinal]
  unfold ePartial ePassResult eRow
  have hdropnil : (s.efield.field.getD s.efield.n []).drop s.num_i = [] := by
    rw [List.drop_eq_nil_iff, hlenR]
  rw [hdropnil, List.append_nil]

/-- Value of the H pass at an in-range index. -/
theorem hPassResult_val (s : Sim) (hh : s.hfield.wf) (hnh : s.hfield.n < s.hfield.num_n)
    (hhi : s.hfield.num_i = s.num_i) (i : Nat) (hi : i < s.num_i) :
    (hPassResult s).hfield.val (i : Int) = hFun s i := by
  have hnlen : s.hfield.n < s.hfield.field.length := by rw [hh.1]; exact hnh
  unfold Field.val
  rw [if_neg (show ¬ ((i : Int) < 0 ∨ ((hPassResult s).hfield.num_i : Int) ≤ (i : Int)) by show ¬ ((i : Int) < 0 ∨ (s.hfield.num_i : Int) ≤ (i : Int)); omega)]
  show ((s.hfield.field.set s.hfield.n (hRow s)).getD s.hfield.n []).getD ((i : Int)).toNat 0 = hFun s i
  rw [getD_set_self _ _ _ _ hnlen, Int.toNat_natCast]
  unfold hRow
  exact getD_map_range (hFun s) s.num_i i 0 hi

/-- Value of the E pass at an in-range index. -/
theorem ePassResult_val (s : Sim) (he : s.efield.wf) (hne : s.efield.n < s.efield.num_n)
    (hei : s.efield.num_i = s.num_i) (i : Nat) (hi : i < s.num_i) :
    (ePassResult s).efield.val (i : Int) = eFun s i := by
  have hnlen : s.efield.n < s.efield.field.length := by rw [he.1]; exact hne
  unfold Field.val
  rw [if_neg (show ¬ ((i : Int) < 0 ∨ ((ePassResult s).efield.num_i : Int) ≤ (i : Int)) by show ¬ ((i : Int) < 0 ∨ (s.efield.num_i : Int) ≤ (i : Int)); omega)]
  show ((s.efield.field.set s.efield.n (eRow s)).getD s.efield.n []).getD ((i : Int)).toNat 0 = eFun s i
  rw [getD_set_self _ _ _ _ hnlen, Int.toNat_natCast]
  unfold eRow
  exact getD_map_range (eFun s) s.num_i i 0 hi

/-- H pass preserves well-formedness of the written grid. -/
theorem hPassResult_hfield_wf (s : Sim) (hh : s.hfield.wf)
    (hhi : s.hfield.num_i = s.num_i) : (hPassResult s).hfield.wf := by
  have hr : (hRow s).length = s.hfield.num_i := by
    unfold hRow; rw [hhi]; simp
  exact wf_mk_set s.hfield.n s.hfield.n s.hfield hh (hRow s) hr

/-- E pass preserves well-formedness of the written grid. -/
theorem ePassResult_efield_wf (s : Sim) (he : s.efield.wf)
    (hei : s.efield.num_i = s.num_i) : (ePassResult s).efield.wf := by
  have hr : (eRow s).length = s.efield.num_i := by
    unfold eRow; rw [hei]; simp
  exact wf_mk_set s.efield.n s.efield.n s.efield he (eRow s) hr

/-! ### Claim C2: the two update equations -/

/-- C2: each iteration first runs `_calc_hfield`, setting
`H[i] := H[i] - ch*(E[i+1] - E[i])` for every `i` using only pre-update E
values (out-of-range E reads are zero), and then runs `_calc_efield`,
setting `E[i] := c1*E[i] + c2*psi - c3*(H[i] - H[i-1]) - c4*J[i]` using
the just-updated H values (out-of-range H reads are zero), where the
dispersion term psi is identically zero. -/
theorem c2_update_equations (s : Sim) (hw : s.wf)
    (hne : s.efield.n < s.num_n) (hnh : s.hfield.n < s.num_n) (hnc : s.cfield.n < s.num_n) :
    ∃ s₁ s₂ : Sim,
      s.calc_hfield = Except.ok s₁ ∧
      s₁.efield = s.efield ∧ s₁.cfield = s.cfield ∧
      (∀ i : Nat, i < s.num_i →
        s₁.hfield.val (i : Int) =
          s.hfield.val (i : Int) - s.h_calc_term2_prop_coeff *
            (s.efield.val ((i : Int) + 1) - s.efield.val (i : Int))) ∧
      s₁.calc_efield = Except.ok s₂ ∧
      s₂.hfield = s₁.hfield ∧ s₂.cfield = s.cfield ∧
      Sim.psi s₁ = 0 ∧
      (∀ i : Nat, i < s.num_i →
        s₂.efield.val (i : Int) =
          s.e_calc_term1_prop_coeff * s.efield.val (i : Int) +
          s.e_calc_term2_prop_coeff * Sim.psi s₁ -
          s.e_calc_term3_prop_coeff *
            (s₁.hfield.val (i : Int) - s₁.hfield.val ((i : Int) - 1)) -
          s.e_calc_term4_prop_coeff * s.cfield.val (i : Int)) := by
  obtain ⟨hew, hhw, hcw, hen, hei, hhn, hhi, hcn, hci⟩ := hw
  have hne' : s.efield.n < s.efield.num_n := by omega
  have hnh' : s.hfield.n < s.hfield.num_n := by omega
  have hnc' : s.cfield.n < s.cfield.num_n := by omega
  refine ⟨hPassResult s, ePassResult (hPassResult s),
    calc_hfield_spec s hew hne' hhw hnh' hhi, rfl, rfl, ?_, ?_, rfl, rfl, rfl, ?_⟩
  · intro i hi
    rw [hPassResult_val s hhw hnh' hhi i hi]
    rfl
  · exact calc_efield_spec (hPassResult s) hew hne' hei
      (hPassResult_hfield_wf s hhw hhi) hnh' hcw hnc'
  · intro i hi
    rw [ePassResult_val (hPassResult s) hew hne' hei i hi]
    rfl

/-! ### Concrete solver instances used as witnesses and counterexamples -/

/-- A 2x1 current grid with an impulse in row 0. -/
def cfC1 : Field := ⟨0, 2, 1, [[1], [0]]⟩

/-- A concrete solver with unit constants over a 2x1 grid. -/
def simC1 : Sim := Sim.init 1 1 1 1 1 2 1 cfC1 0 0

/-- A 3x2 current grid with an impulse at row 0, column 0. -/
def cf9 : Field := ⟨0, 3, 2, [[1, 0], [0, 0], [0, 0]]⟩

/-- A concrete solver with unit constants over a 3x2 grid. -/
def sim9 : Sim := Sim.init 1 1 1 1 1 3 2 cf9 0 0

/-- Witness for C2 at the concrete solver `sim9`. -/
theorem c2_update_equations_witness :
    ∃ s₁ s₂ : Sim,
      sim9.calc_hfield = Except.ok s₁ ∧
      s₁.efield = sim9.efield ∧ s₁.cfield = sim9.cfield ∧
      (∀ i : Nat, i < sim9.num_i →
        s₁.hfield.val (i : Int) =
          sim9.hfield.val (i : Int) - sim9.h_calc_term2_prop_coeff *
            (sim9.efield.val ((i : Int) + 1) - sim9.efield.val (i : Int))) ∧
      s₁.calc_efield = Except.ok s₂ ∧
      s₂.hfield = s₁.hfield ∧ s₂.cfield = sim9.cfield ∧
      Sim.psi s₁ = 0 ∧
      (∀ i : Nat, i < sim9.num_i →
        s₂.efield.val (i : Int) =
          sim9.e_calc_term1_prop_coeff * sim9.efield.val (i : Int) +
          sim9.e_calc_term2_prop_coeff * Sim.psi s₁ -
          sim9.e_calc_term3_prop_coeff *
            (s₁.hfield.val (i : Int) - s₁.hfield.val ((i : Int) - 1)) -
          sim9.e_calc_term4_prop_coeff * sim9.cfield.val (i : Int)) :=
  c2_update_equations sim9 (by decide) (by decide) (by decide) (by decide)

/-- C1 counterexample: after `simulate()` on a concrete solver whose 2x1
current grid is [[1],[0]], the current grid's buffer is still [[1],[0]]
(only the cursor moved), whereas `advance()` semantics (`Field.iterate`)
would have copied row 0 forward, producing [[1],[1]]. -/
theorem c1_cfield_advance_counterexample :
    (Sim.simulate simC1).toOption.map (fun t => t.cfield.field) = some [[1], [0]] ∧
    (Field.iterate simC1.cfield).toOption.map Field.field = some [[1], [1]] ∧
    some [[(1 : ℚ)], [0]] ≠ some [[(1 : ℚ)], [1]] := by
  refine ⟨?_, by decide, by decide⟩
  norm_num [Sim.simulate, Sim.step, Sim.calc_hfield, Sim.calc_efield, Sim.hstep, Sim.estep,
    Sim.iterate_cfield, Field.set_time_index, Field.get_index, Field.set_index, Field.iterate,
    Field.get_time_index, Sim.current, Sim.psi, Sim.init, Field.mk0,
    List.foldlM, List.range_succ, Except.toOption, List.replicate, simC1, cfC1]

/-- C9: `simulate()` only resets cursors and never clears stored values,
so a second invocation on the same instance produces an electric-field
buffer different from the buffer of a single run on a fresh instance
(which itself is not the all-zero buffer). -/
theorem c9_reinvocation :
    (Sim.simulate sim9).toOption.map (fun t => t.efield.field) =
      some [[-1, 0], [0, -1], [0, -1]] ∧
    (Sim.simulate sim9 >>= Sim.simulate).toOption.map (fun t => t.efield.field) =
      some [[-1, -1], [0, -1], [0, -1]] ∧
    some [[(-1 : ℚ), -1], [0, -1], [0, -1]] ≠ some [[(-1 : ℚ), 0], [0, -1], [0, -1]] ∧
    some [[(-1 : ℚ), 0], [0, -1], [0, -1]] ≠ some (Field.mk0 3 2).field := by
  refine ⟨?_, ?_, by decide, by decide⟩
  · norm_num [Sim.simulate, Sim.step, Sim.calc_hfield, Sim.calc_efield, Sim.hstep, Sim.estep,
    Sim.iterate_cfield, Field.set_time_index, Field.get_index, Field.set_index, Field.iterate,
    Field.get_time_index, Sim.current, Sim.psi, Sim.init, Field.mk0,
    List.foldlM, List.range_succ, Except.toOption, List.replicate, sim9, cf9]
  · norm_num [Sim.simulate, Sim.step, Sim.calc_hfield, Sim.calc_efield, Sim.hstep, Sim.estep,
    Sim.iterate_cfield, Field.set_time_index, Field.get_index, Field.set_index, Field.iterate,
    Field.get_time_index, Sim.current, Sim.psi, Sim.init, Field.mk0,
    List.foldlM, List.range_succ, Except.toOption, List.replicate, sim9, cf9]

theorem hPassResult_efield (s : Sim) : (hPassResult s).efield = s.efield := rfl

theorem hPassResult_cfield (s : Sim) : (hPassResult s).cfield = s.cfield := rfl

theorem ePassResult_hfield (s : Sim) : (ePassResult s).hfield = s.hfield := rfl

theorem ePassResult_cfield (s : Sim) : (ePassResult s).cfield = s.cfield := rfl

/-! ### One full loop iteration -/

/-- `set_time_index` at the successor of the current cursor. -/
theorem Field.set_time_index_succ (F : Field) (h : F.n + 1 < F.num_n) :
    F.set_time_index ((F.n : Int) + 1) = Except.ok { F with n := F.n + 1 } := by
  unfold Field.set_time_index
  rw [if_neg (by omega)]
  have ht : ((F.n : Int) + 1).toNat = F.n + 1 := by omega
  rw [ht]

/-- The solver state after one loop iteration: H pass, E pass, H and E
rows copied forward with cursors bumped, current-field cursor bumped. -/
def stepResult (s : Sim) : Sim :=
  let t := ePassResult (hPassResult s)
  { t with hfield := { t.hfield with field := t.hfield.field.set (t.hfield.n + 1) (t.hfield.field.getD t.hfield.n []), n := t.hfield.n + 1 }, efield := { t.efield with field := t.efield.field.set (t.efield.n + 1) (t.efield.field.getD t.efield.n []), n := t.efield.n + 1 }, cfield := { t.cfield with n := t.cfield.n + 1 } }

/-- One iteration of the `simulate` loop body on a well-formed state with
non-final cursors. -/
theorem step_spec (s : Sim) (hw : s.wf)
    (hne : s.efield.n + 1 < s.num_n) (hnh : s.hfield.n + 1 < s.num_n)
    (hnc : s.cfield.n + 1 < s.num_n) :
    s.step = Except.ok (stepResult s) := by
  obtain ⟨hew, hhw, hcw, hen, hei, hhn, hhi, hcn, hci⟩ := hw
  have h1 := calc_hfield_spec s hew (by omega) hhw (by omega) hhi
  have hwfh : (hPassResult s).hfield.wf := hPassResult_hfield_wf s hhw hhi
  have h2 := calc_efield_spec (hPassResult s) hew
    (by show s.efield.n < s.efield.num_n; omega) hei hwfh
    (by show s.hfield.n < s.hfield.num_n; omega) hcw
    (by show s.cfield.n < s.cfield.num_n; omega)
  have hwfe : (ePassResult (hPassResult s)).efield.wf :=
    ePassResult_efield_wf (hPassResult s) hew hei
  have hih := Field.iterate_ok (ePassResult (hPassResult s)).hfield hwfh
    (show s.hfield.n + 1 < s.hfield.num_n by omega)
  have hie := Field.iterate_ok (ePassResult (hPassResult s)).efield hwfe
    (show s.efield.n + 1 < s.efield.num_n by omega)
  have hic := Field.set_time_index_succ s.cfield
    (show s.cfield.n + 1 < s.cfield.num_n by omega)
  unfold Sim.step
  rw [h1, except_bind_ok, h2, except_bind_ok]
  rw [hih, except_bind_ok]
  simp only [hie, except_bind_ok, Sim.iterate_cfield, Field.get_time_index,
    ePassResult_cfield, hPassResult_cfield, hic, except_pure, except_bind_ok]
  rfl

/-- C1 amended: each iteration advances the current-source grid by
incrementing its cursor only — its buffer is left untouched rather than
having the active row copied forward — and after the iteration all three
grids share the same cursor value. -/
theorem c1_cfield_advance_amended (s : Sim) (j : Nat) (hw : s.wf)
    (he : s.efield.n = j) (hh : s.hfield.n = j) (hc : s.cfield.n = j)
    (hj : j + 1 < s.num_n) :
    ∃ s', s.step = Except.ok s' ∧ s'.cfield.field = s.cfield.field ∧
      s'.cfield.n = j + 1 ∧ s'.efield.n = j + 1 ∧ s'.hfield.n = j + 1 := by
  refine ⟨stepResult s, step_spec s hw (by omega) (by omega) (by omega), rfl, ?_, ?_, ?_⟩
  · show s.cfield.n + 1 = j + 1
    omega
  · show s.efield.n + 1 = j + 1
    omega
  · show s.hfield.n + 1 = j + 1
    omega

/-- Witness for the amended C1 statement at the concrete solver `simC1`. -/
theorem c1_cfield_advance_witness :
    ∃ s', simC1.step = Except.ok s' ∧ s'.cfield.field = simC1.cfield.field ∧
      s'.cfield.n = 1 ∧ s'.efield.n = 1 ∧ s'.hfield.n = 1 :=
  c1_cfield_advance_amended simC1 0 (by decide) rfl rfl rfl (by decide)

/-! ### Claim C7: the five proportionality coefficients -/

/-- The five stored proportionality coefficients. -/
def Sim.coeffs (s : Sim) : ℚ × ℚ × ℚ × ℚ × ℚ :=
  (s.e_calc_term1_prop_coeff, s.e_calc_term2_prop_coeff, s.e_calc_term3_prop_coeff,
    s.e_calc_term4_prop_coeff, s.h_calc_term2_prop_coeff)

theorem hstep_coeffs (s t : Sim) (i : Nat) (h : Sim.hstep s i = Except.ok t) :
    t.coeffs = s.coeffs := by
  unfold Sim.hstep at h
  simp only [bind_ok_iff, except_pure, Except.ok.injEq] at h
  obtain ⟨a, ha, b, hb, c, hc, hf, hhf, ht⟩ := h
  rw [← ht]
  rfl

theorem estep_coeffs (s t : Sim) (i : Nat) (h : Sim.estep s i = Except.ok t) :
    t.coeffs = s.coeffs := by
  unfold Sim.estep at h
  simp only [bind_ok_iff, except_pure, Except.ok.injEq] at h
  obtain ⟨a, ha, b, hb, c, hc, d, hd, ef, hef, ht⟩ := h
  rw [← ht]
  rfl

theorem iterate_cfield_coeffs (s t : Sim) (h : Sim.iterate_cfield s = Except.ok t) :
    t.coeffs = s.coeffs := by
  unfold Sim.iterate_cfield at h
  simp only [bind_ok_iff, except_pure, Except.ok.injEq] at h
  obtain ⟨cf, hcf, ht⟩ := h
  rw [← ht]
  rfl

theorem foldlM_coeffs (f : Sim → Nat → Except String Sim)
    (hf : ∀ u i t, f u i = Except.ok t → t.coeffs = u.coeffs) :
    ∀ (l : List Nat) (u t : Sim), l.foldlM f u = Except.ok t → t.coeffs = u.coeffs := by
  intro l
  induction l with
  | nil =>
    intro u t h
    simp only [List.foldlM, except_pure, Except.ok.injEq] at h
    rw [← h]
  | cons a l ih =>
    intro u t h
    simp only [List.foldlM, bind_ok_iff] at h
    obtain ⟨v, hv, hrest⟩ := h
    exact (ih v t hrest).trans (hf u a v hv)

theorem step_coeffs (s t : Sim) (h : Sim.step s = Except.ok t) :
    t.coeffs = s.coeffs := by
  unfold Sim.step at h
  simp only [bind_ok_iff] at h
  obtain ⟨s₁, h1, s₂, h2, hf, hhf, ef, hef, hlast⟩ := h
  unfold Sim.calc_hfield at h1
  unfold Sim.calc_efield at h2
  have e1 : s₁.coeffs = s.coeffs :=
    foldlM_coeffs Sim.hstep (fun u i t hx => hstep_coeffs u t i hx) _ s s₁ h1
  have e2 : s₂.coeffs = s₁.coeffs :=
    foldlM_coeffs Sim.estep (fun u i t hx => estep_coeffs u t i hx) _ s₁ s₂ h2
  have e3 := iterate_cfield_coeffs _ t hlast
  exact e3.trans (e2.trans e1)

theorem simulate_coeffs (s t : Sim) (h : Sim.simulate s = Except.ok t) :
    t.coeffs = s.coeffs := by
  unfold Sim.simulate at h
  simp only [bind_ok_iff] at h
  obtain ⟨ef, hef, hf, hhf, cf, hcf, hfold⟩ := h
  have hres := foldlM_coeffs (fun u _ => Sim.step u) (fun u i t hx => step_coeffs u t hx)
    (List.range (s.num_n - 1)) { s with efield := ef, hfield := hf, cfield := cf } t hfold
  exact hres

/-- C7: the constructor stores exactly the five coefficient formulas
`c1 = εinf/(εinf+χ0)`, `c2 = 1/(εinf+χ0)`, `c3 = Δt/(ε0·Δz·(εinf+χ0))`,
`c4 = Δt/(ε0·(εinf+χ0))`, `ch = Δt/(μ0·Δz)` from its inputs, and no later
operation — in particular no successful `simulate()` — changes any of
them. -/
theorem c7_coefficients :
    (∀ ε0 εinf μ0 Δt Δz : ℚ, ∀ nn ni : Nat, ∀ cf : Field, ∀ χ χ0 : ℚ,
      (Sim.init ε0 εinf μ0 Δt Δz nn ni cf χ χ0).coeffs =
        (εinf / (εinf + χ0), 1 / (εinf + χ0), Δt / (ε0 * Δz * (εinf + χ0)),
          Δt / (ε0 * (εinf + χ0)), Δt / (μ0 * Δz))) ∧
    (∀ s t : Sim, Sim.simulate s = Except.ok t → t.coeffs = s.coeffs) :=
  ⟨fun _ _ _ _ _ _ _ _ _ _ => rfl, simulate_coeffs⟩

/-- Witness for C7: the concrete solver's stored coefficients match the
formulas, and a successful `simulate()` run leaves them unchanged. -/
theorem c7_coefficients_witness :
    simC1.coeffs = ((1 : ℚ) / (1 + 0), 1 / (1 + 0), 1 / (1 * 1 * (1 + 0)),
      1 / (1 * (1 + 0)), 1 / (1 * 1)) ∧
    ∃ t, Sim.simulate simC1 = Except.ok t ∧ t.coeffs = simC1.coeffs := by
  constructor
  · exact c7_coefficients.1 1 1 1 1 1 2 1 cfC1 0 0
  · have hsome : (Sim.simulate simC1).toOption.isSome = true := by
      norm_num [Sim.simulate, Sim.step, Sim.calc_hfield, Sim.calc_efield, Sim.hstep, Sim.estep,
        Sim.iterate_cfield, Field.set_time_index, Field.get_index, Field.set_index, Field.iterate,
        Field.get_time_index, Sim.current, Sim.psi, Sim.init, simC1, cfC1, Field.mk0,
        List.foldlM, List.range_succ, Except.toOption, List.replicate]
    cases h : Sim.simulate simC1 with
    | error e => rw [h] at hsome; simp [Except.toOption] at hsome
    | ok t => exact ⟨t, rfl, c7_coefficients.2 simC1 t h⟩

/-! ### Claim C6: causal propagation of an impulse -/

/-- Row support bound: entries are zero outside the index box [lo, hi]. -/
def rowBnd2 (r : List ℚ) (lo hi : Int) : Prop :=
  ∀ i : Nat, ((i : Int) < lo ∨ hi < (i : Int)) → r.getD i 0 = 0

theorem getD_oob (l : List α) (k : Nat) (d : α) (h : l.length ≤ k) : l.getD k d = d := by
  induction l generalizing k with
  | nil => rfl
  | cons a t ih =>
    cases k with
    | zero => simp at h
    | succ j => exact ih j (by simpa using h)

theorem rowBnd2_mono (r : List ℚ) (lo hi lo' hi' : Int) (h : rowBnd2 r lo hi)
    (h1 : lo' ≤ lo) (h2 : hi ≤ hi') : rowBnd2 r lo' hi' := by
  intro i hi'
  apply h
  omega

theorem rowBnd2_of_zero (r : List ℚ) (lo hi : Int) (h : ∀ i : Nat, r.getD i 0 = 0) :
    rowBnd2 r lo hi := fun i _ => h i

/-- A row bound on the current row gives the zero-value bound on `val`. -/
theorem val_of_rowBnd2 (F : Field) (lo hi : Int)
    (h : rowBnd2 (F.field.getD F.n []) lo hi) :
    ∀ i : Int, (i < lo ∨ hi < i) → F.val i = 0 := by
  intro i hi
  unfold Field.val
  by_cases hb : i < 0 ∨ (F.num_i : Int) ≤ i
  · rw [if_pos hb]
  · rw [if_neg hb]
    apply h i.toNat
    omega

/-- Support transfer of the magnetic pass: the new H row spreads the
common E/H support box one cell to the left only. -/
theorem hRow_bnd (s : Sim) (a b : Int)
    (hH : ∀ i : Int, (i < a ∨ b < i) → s.hfield.val i = 0)
    (hE : ∀ i : Int, (i < a ∨ b < i) → s.efield.val i = 0) :
    rowBnd2 (hRow s) (a - 1) b := by
  intro i hi
  unfold hRow
  by_cases hin : i < s.num_i
  · rw [getD_map_range _ _ _ _ hin]
    unfold hFun
    rw [hH (i : Int) (by omega), hE ((i : Int) + 1) (by omega), hE (i : Int) (by omega)]
    ring
  · exact getD_oob _ _ _ (by simp; omega)

/-- Support transfer of the electric pass: the new E row spreads the
support one cell each way, absorbing the current-source support. -/
theorem eRow_bnd (s : Sim) (a b : Int)
    (hE : ∀ i : Int, (i < a ∨ b < i) → s.efield.val i = 0)
    (hH : ∀ i : Int, (i < a - 1 ∨ b < i) → s.hfield.val i = 0)
    (hJ : ∀ i : Int, (i < a - 1 ∨ b + 1 < i) → s.cfield.val i = 0) :
    rowBnd2 (eRow s) (a - 1) (b + 1) := by
  intro i hi
  unfold eRow
  by_cases hin : i < s.num_i
  · rw [getD_map_range _ _ _ _ hin]
    unfold eFun
    rw [hE (i : Int) (by omega), hH (i : Int) (by omega), hH ((i : Int) - 1) (by omega),
      hJ (i : Int) (by omega)]
    unfold Sim.psi
    ring
  · exact getD_oob _ _ _ (by simp; omega)

/-- The caller-supplied current-source buffer of Scenario B: zero
everywhere except value `v` at time row 0, spatial index 5, in a 6x11
grid. -/
def impulseRows (v : ℚ) : List (List ℚ) :=
  [[0, 0, 0, 0, 0, v, 0, 0, 0, 0, 0]] ++ List.replicate 5 (List.replicate 11 0)

/-- The Scenario B current-source grid, built as `Field(field=...)`. -/
def impulseGrid (v : ℚ) : Field := Field.ofField (impulseRows v)

theorem impulse_tail_zero (k i : Nat) :
    ((List.replicate 5 (List.replicate 11 (0 : ℚ))).getD k []).getD i 0 = 0 := by
  rw [getD_replicate]
  by_cases hk : k < 5
  · rw [if_pos hk, getD_replicate]
    by_cases hi : i < 11
    · rw [if_pos hi]
    · rw [if_neg hi]
  · rw [if_neg hk]
    rfl

/-- Each row of the impulse buffer is supported inside the causality cone
of its own row index. -/
theorem impulse_rowBnd (v : ℚ) (m : Nat) :
    rowBnd2 ((impulseRows v).getD m []) (5 - (m : Int)) (5 + (m : Int)) := by
  cases m with
  | zero =>
    intro i hi
    have hne : i ≠ 5 := by omega
    unfold impulseRows
    by_cases h11 : i < 11
    · interval_cases i <;> simp_all
    · exact getD_oob _ _ _ (by simp; omega)
  | succ k =>
    intro i _
    unfold impulseRows
    rw [List.singleton_append, List.getD_cons_succ]
    exact impulse_tail_zero k i

/-- The loop invariant for Scenario B after `j` iterations: all cursors
sit at row `j`; finished E rows `m < j` are supported in the cone
`[5-m, 5+m]`; the rows at the cursor are copies supported in the previous
cone; all later rows are still zero; the current grid still holds the
impulse buffer. -/
def Inv (v : ℚ) (j : Nat) (s : Sim) : Prop :=
  s.num_n = 6 ∧ s.num_i = 11 ∧
  s.efield.num_n = 6 ∧ s.efield.num_i = 11 ∧ s.efield.n = j ∧ s.efield.wf ∧
  s.hfield.num_n = 6 ∧ s.hfield.num_i = 11 ∧ s.hfield.n = j ∧ s.hfield.wf ∧
  s.cfield.num_n = 6 ∧ s.cfield.num_i = 11 ∧ s.cfield.n = j ∧
  s.cfield.field = impulseRows v ∧
  (∀ m : Nat, m < j → rowBnd2 (s.efield.field.getD m []) (5 - (m : Int)) (5 + (m : Int))) ∧
  rowBnd2 (s.efield.field.getD j []) (6 - (j : Int)) (4 + (j : Int)) ∧
  (∀ m : Nat, j < m → ∀ i : Nat, (s.efield.field.getD m []).getD i 0 = 0) ∧
  rowBnd2 (s.hfield.field.getD j []) (6 - (j : Int)) (4 + (j : Int)) ∧
  (∀ m : Nat, j < m → ∀ i : Nat, (s.hfield.field.getD m []).getD i 0 = 0)

theorem impulseRows_wf (v : ℚ) (F : Field) (hf : F.field = impulseRows v)
    (hn : F.num_n = 6) (hi : F.num_i = 11) : F.wf := by
  constructor
  · rw [hf, hn]
    rfl
  · intro r hr
    rw [hf] at hr
    unfold impulseRows at hr
    rw [List.singleton_append, List.mem_cons] at hr
    rcases hr with hr | hr
    · rw [hr, hi]
      rfl
    · rw [List.eq_of_mem_replicate hr, hi]
      simp

theorem stepResult_efield_field (s : Sim) :
    (stepResult s).efield.field = (s.efield.field.set s.efield.n (eRow (hPassResult s))).set (s.efield.n + 1) ((s.efield.field.set s.efield.n (eRow (hPassResult s))).getD s.efield.n []) := rfl

theorem stepResult_hfield_field (s : Sim) :
    (stepResult s).hfield.field = (s.hfield.field.set s.hfield.n (hRow s)).set (s.hfield.n + 1) ((s.hfield.field.set s.hfield.n (hRow s)).getD s.hfield.n []) := rfl

/-- One loop iteration preserves the Scenario B invariant, moving it one
row forward. -/
theorem step_inv (v : ℚ) (j : Nat) (s : Sim) (hI : Inv v j s) (hj : j + 1 < 6) :
    Sim.step s = Except.ok (stepResult s) ∧ Inv v (j + 1) (stepResult s) := by
  obtain ⟨h6, h11, hen6, hei11, henj, hewf, hhn6, hhi11, hhnj, hhwf,
    hcn6, hci11, hcnj, hcf, hA, hB, hC, hD, hE0⟩ := hI
  have hcwf : s.cfield.wf := impulseRows_wf v s.cfield hcf hcn6 hci11
  have hw : s.wf := ⟨hewf, hhwf, hcwf, by omega, by omega, by omega, by omega, by omega, by omega⟩
  have hstep := step_spec s hw (by omega) (by omega) (by omega)
  have hElen : s.efield.field.length = 6 := by rw [hewf.1]; omega
  have hHlen : s.hfield.field.length = 6 := by rw [hhwf.1]; omega
  have hjlt : j < 6 := by omega
  have hgetE : (s.efield.field.set s.efield.n (eRow (hPassResult s))).getD s.efield.n [] = eRow (hPassResult s) :=
    getD_set_self _ _ _ _ (by rw [hElen]; omega)
  have hgetH : (s.hfield.field.set s.hfield.n (hRow s)).getD s.hfield.n [] = hRow s :=
    getD_set_self _ _ _ _ (by rw [hHlen]; omega)
  have hef : (stepResult s).efield.field =
      (s.efield.field.set j (eRow (hPassResult s))).set (j + 1) (eRow (hPassResult s)) := by
    rw [stepResult_efield_field, hgetE, henj]
  have hhf : (stepResult s).hfield.field =
      (s.hfield.field.set j (hRow s)).set (j + 1) (hRow s) := by
    rw [stepResult_hfield_field, hgetH, hhnj]
  have hEval : ∀ i : Int, (i < 6 - (j : Int) ∨ 4 + (j : Int) < i) → s.efield.val i = 0 :=
    val_of_rowBnd2 s.efield _ _ (by rw [henj]; exact hB)
  have hHval : ∀ i : Int, (i < 6 - (j : Int) ∨ 4 + (j : Int) < i) → s.hfield.val i = 0 :=
    val_of_rowBnd2 s.hfield _ _ (by rw [hhnj]; exact hD)
  have hHrow : rowBnd2 (hRow s) (5 - (j : Int)) (4 + (j : Int)) :=
    rowBnd2_mono _ _ _ _ _ (hRow_bnd s (6 - (j : Int)) (4 + (j : Int)) hHval hEval)
      (by omega) (by omega)
  have hEval1 : ∀ i : Int, (i < 6 - (j : Int) ∨ 4 + (j : Int) < i) →
      (hPassResult s).efield.val i = 0 := hEval
  have hHval1 : ∀ i : Int, (i < 5 - (j : Int) ∨ 4 + (j : Int) < i) →
      (hPassResult s).hfield.val i = 0 := by
    apply val_of_rowBnd2
    show rowBnd2 ((s.hfield.field.set s.hfield.n (hRow s)).getD s.hfield.n []) _ _
    rw [hgetH]
    exact hHrow
  have hJval1 : ∀ i : Int, (i < 5 - (j : Int) ∨ 5 + (j : Int) < i) →
      (hPassResult s).cfield.val i = 0 := by
    apply val_of_rowBnd2
    show rowBnd2 (s.cfield.field.getD s.cfield.n []) _ _
    rw [hcf, hcnj]
    exact impulse_rowBnd v j
  have hErow : rowBnd2 (eRow (hPassResult s)) (5 - (j : Int)) (5 + (j : Int)) := by
    have hbig := eRow_bnd (hPassResult s) (6 - (j : Int)) (4 + (j : Int)) hEval1
      (fun i hc => hHval1 i (by omega)) (fun i hc => hJval1 i (by omega))
    exact rowBnd2_mono _ _ _ _ _ hbig (by omega) (by omega)
  have hErowLen : (eRow (hPassResult s)).length = s.efield.num_i := by
    unfold eRow
    simp
    show s.num_i = s.efield.num_i
    omega
  have hHrowLen : (hRow s).length = s.hfield.num_i := by
    unfold hRow
    simp
    omega
  have hefield : (stepResult s).efield = ⟨s.efield.n + 1, s.efield.num_n, s.efield.num_i, (stepResult s).efield.field⟩ := rfl
  have hhfield : (stepResult s).hfield = ⟨s.hfield.n + 1, s.hfield.num_n, s.hfield.num_i, (stepResult s).hfield.field⟩ := rfl
  refine ⟨hstep, h6, h11, hen6, hei11, ?_, ?_, hhn6, hhi11, ?_, ?_, hcn6, hci11, ?_, hcf,
    ?_, ?_, ?_, ?_, ?_⟩
  · show s.efield.n + 1 = j + 1
    omega
  · -- efield well-formed after the two row writes
    rw [hefield, hef]
    have hw1 : Field.wf ⟨s.efield.n + 1, s.efield.num_n, s.efield.num_i, s.efield.field.set j (eRow (hPassResult s))⟩ := by
      have := wf_mk_set (s.efield.n + 1) j s.efield hewf (eRow (hPassResult s)) hErowLen
      exact this
    have hw2 := wf_mk_set (s.efield.n + 1) (j + 1)
      (⟨s.efield.n + 1, s.efield.num_n, s.efield.num_i, s.efield.field.set j (eRow (hPassResult s))⟩ : Field)
      hw1 (eRow (hPassResult s)) hErowLen
    exact hw2
  · show s.hfield.n + 1 = j + 1
    omega
  · rw [hhfield, hhf]
    have hw1 : Field.wf ⟨s.hfield.n + 1, s.hfield.num_n, s.hfield.num_i, s.hfield.field.set j (hRow s)⟩ := by
      have := wf_mk_set (s.hfield.n + 1) j s.hfield hhwf (hRow s) hHrowLen
      exact this
    have hw2 := wf_mk_set (s.hfield.n + 1) (j + 1)
      (⟨s.hfield.n + 1, s.hfield.num_n, s.hfield.num_i, s.hfield.field.set j (hRow s)⟩ : Field)
      hw1 (hRow s) hHrowLen
    exact hw2
  · show s.cfield.n + 1 = j + 1
    omega
  · -- finished E rows stay inside their cones
    intro m hm
    show rowBnd2 (((stepResult s).efield.field).getD m []) _ _
    rw [hef]
    by_cases hmj : m = j
    · subst hmj
      rw [getD_set_ne _ _ _ _ _ (by omega), getD_set_self _ _ _ _ (by rw [hElen]; omega)]
      exact hErow
    · rw [getD_set_ne _ _ _ _ _ (by omega), getD_set_ne _ _ _ _ _ (by omega)]
      exact hA m (by omega)
  · -- the new cursor row is the copied E row
    show rowBnd2 (((stepResult s).efield.field).getD (j + 1) []) _ _
    rw [hef, getD_set_self _ _ _ _ (by rw [List.length_set, hElen]; omega)]
    exact rowBnd2_mono _ _ _ _ _ hErow (by omega) (by omega)
  · -- E rows beyond the cursor are still zero
    intro m hm i
    show (((stepResult s).efield.field).getD m []).getD i 0 = 0
    rw [hef, getD_set_ne _ _ _ _ _ (by omega), getD_set_ne _ _ _ _ _ (by omega)]
    exact hC m (by omega) i
  · -- the new cursor row is the copied H row
    show rowBnd2 (((stepResult s).hfield.field).getD (j + 1) []) _ _
    rw [hhf, getD_set_self _ _ _ _ (by rw [List.length_set, hHlen]; omega)]
    exact rowBnd2_mono _ _ _ _ _ hHrow (by omega) (by omega)
  · -- H rows beyond the cursor are still zero
    intro m hm i
    show (((stepResult s).hfield.field).getD m []).getD i 0 = 0
    rw [hhf, getD_set_ne _ _ _ _ _ (by omega), getD_set_ne _ _ _ _ _ (by omega)]
    exact hE0 m (by omega) i

/-- `set_time_index 0` succeeds on any grid with at least one row. -/
theorem Field.set_time_index_zero (F : Field) (h : 0 < F.num_n) :
    F.set_time_index 0 = Except.ok { F with n := 0 } := by
  unfold Field.set_time_index
  rw [if_neg (by omega)]
  rfl

/-- On a state whose three cursors already sit at 0, `simulate` is the
bare iteration loop. -/
theorem simulate_eq_foldlM (s : Sim) (he : s.efield.n = 0) (hh : s.hfield.n = 0)
    (hc : s.cfield.n = 0) (h1 : 0 < s.efield.num_n) (h2 : 0 < s.hfield.num_n)
    (h3 : 0 < s.cfield.num_n) :
    Sim.simulate s = (List.range (s.num_n - 1)).foldlM (fun t _ => Sim.step t) s := by
  have hee : ({ s.efield with n := 0 } : Field) = s.efield := by rw [← he]
  have hhh : ({ s.hfield with n := 0 } : Field) = s.hfield := by rw [← hh]
  have hcc : ({ s.cfield with n := 0 } : Field) = s.cfield := by rw [← hc]
  unfold Sim.simulate
  simp only [Field.set_time_index_zero s.efield h1, Field.set_time_index_zero s.hfield h2,
    Field.set_time_index_zero s.cfield h3, except_bind_ok, hee, hhh, hcc]

/-- Chaining the invariant through a foldlM of loop iterations. -/
theorem steps_inv (v : ℚ) :
    ∀ (l : List Nat) (j : Nat) (s : Sim), Inv v j s → j + l.length ≤ 5 →
      ∃ s', l.foldlM (fun t _ => Sim.step t) s = Except.ok s' ∧
        Inv v (j + l.length) s' := by
  intro l
  induction l with
  | nil =>
    intro j s hI _
    exact ⟨s, rfl, by simpa using hI⟩
  | cons a l ih =>
    intro j s hI hlen
    have hstep := step_inv v j s hI (by simp at hlen; omega)
    obtain ⟨s', hs', hI'⟩ := ih (j + 1) (stepResult s) hstep.2 (by simp at hlen ⊢; omega)
    refine ⟨s', ?_, ?_⟩
    · simp only [List.foldlM]
      rw [hstep.1, except_bind_ok]
      exact hs'
    · have harith : j + (a :: l).length = j + 1 + l.length := by simp; omega
      rw [harith]
      exact hI'

theorem mk0_row_zero (nn ni m i : Nat) :
    ((Field.mk0 nn ni).field.getD m []).getD i 0 = 0 := by
  show ((List.replicate nn (List.replicate ni (0 : ℚ))).getD m []).getD i 0 = 0
  rw [getD_replicate]
  by_cases hm : m < nn
  · rw [if_pos hm, getD_replicate]
    by_cases hi : i < ni
    · rw [if_pos hi]
    · rw [if_neg hi]
  · rw [if_neg hm]
    rfl

theorem mk0_wf (nn ni : Nat) : (Field.mk0 nn ni).wf := by
  constructor
  · simp [Field.mk0]
  · intro r hr
    show r.length = ni
    have := List.eq_of_mem_replicate (show r ∈ List.replicate nn (List.replicate ni (0 : ℚ)) from hr)
    rw [this]
    simp

/-- The Scenario B invariant holds at the start of the loop. -/
theorem inv_init (vacuum_permittivity infinity_permittivity vacuum_permeability delta_t delta_z susceptibility initial_susceptibility v : ℚ) :
    Inv v 0 (Sim.init vacuum_permittivity infinity_permittivity vacuum_permeability delta_t delta_z 6 11 (impulseGrid v) susceptibility initial_susceptibility) := by
  refine ⟨rfl, rfl, rfl, rfl, rfl, mk0_wf 6 11, rfl, rfl, rfl, mk0_wf 6 11,
    rfl, rfl, rfl, rfl, ?_, ?_, ?_, ?_, ?_⟩
  · intro m hm
    exact absurd hm (by omega)
  · exact rowBnd2_of_zero _ _ _ (fun i => mk0_row_zero 6 11 0 i)
  · intro m _ i
    exact mk0_row_zero 6 11 m i
  · exact rowBnd2_of_zero _ _ _ (fun i => mk0_row_zero 6 11 0 i)
  · intro m _ i
    exact mk0_row_zero 6 11 m i

/-- C6: for every choice of the physical constants, susceptibility values
and impulse amplitude, after `simulate()` on the Scenario B solver (6x11
grids, current source zero except at time row 0 and spatial index 5) the
electric field at time row `m` is exactly zero at every spatial index `i`
with `|i - 5| > m`: the disturbance spreads at most one cell per step
under the zero spatial boundary policy. -/
theorem c6_causal_propagation (vacuum_permittivity infinity_permittivity vacuum_permeability delta_t delta_z susceptibility initial_susceptibility v : ℚ) :
    ∃ s', Sim.simulate (Sim.init vacuum_permittivity infinity_permittivity vacuum_permeability delta_t delta_z 6 11 (impulseGrid v) susceptibility initial_susceptibility) = Except.ok s' ∧
      ∀ m i : Nat, m < 6 → i < 11 → (m : Int) < |(i : Int) - 5| →
        s'.efield.valAt m i = 0 := by
  have h0 := inv_init vacuum_permittivity infinity_permittivity vacuum_permeability delta_t delta_z susceptibility initial_susceptibility v
  have hsim := simulate_eq_foldlM
    (Sim.init vacuum_permittivity infinity_permittivity vacuum_permeability delta_t delta_z 6 11 (impulseGrid v) susceptibility initial_susceptibility)
    rfl rfl rfl (by show (0 : Nat) < 6; omega) (by show (0 : Nat) < 6; omega)
    (by show (0 : Nat) < 6; omega)
  obtain ⟨s', hs', hI⟩ := steps_inv v
    (List.range ((Sim.init vacuum_permittivity infinity_permittivity vacuum_permeability delta_t delta_z 6 11 (impulseGrid v) susceptibility initial_susceptibility).num_n - 1)) 0
    (Sim.init vacuum_permittivity infinity_permittivity vacuum_permeability delta_t delta_z 6 11 (impulseGrid v) susceptibility initial_susceptibility) h0
    (by show 0 + (List.range (6 - 1)).length ≤ 5; simp)
  have hlen : 0 + (List.range ((Sim.init vacuum_permittivity infinity_permittivity vacuum_permeability delta_t delta_z 6 11 (impulseGrid v) susceptibility initial_susceptibility).num_n - 1)).length = 5 := by
    show 0 + (List.range (6 - 1)).length = 5
    simp
  rw [hlen] at hI
  obtain ⟨h6, h11, hen6, hei11, henj, hewf, hhn6, hhi11, hhnj, hhwf,
    hcn6, hci11, hcnj, hcf, hA, hB, hC, hD, hE0⟩ := hI
  refine ⟨s', hsim.trans hs', ?_⟩
  intro m i hm hi habs
  show (s'.efield.field.getD m []).getD i 0 = 0
  by_cases hm5 : m < 5
  · apply hA m hm5 i
    rcases lt_abs.mp habs with h | h
    · right
      omega
    · left
      omega
  · have hm' : m = 5 := by omega
    subst hm'
    apply hB i
    rcases lt_abs.mp habs with h | h
    · right
      omega
    · left
      omega

/-- Witness for C6 at unit constants and impulse amplitude 1. -/
theorem c6_causal_witness :
    ∃ s', Sim.simulate (Sim.init 1 1 1 1 1 6 11 (impulseGrid 1) 0 0) = Except.ok s' ∧
      s'.efield.valAt 0 0 = 0 := by
  obtain ⟨s', h1, h2⟩ := c6_causal_propagation 1 1 1 1 1 0 0 1
  exact ⟨s', h1, h2 0 0 (by omega) (by omega) (by decide)⟩

end FdtdModel
